import Mathlib

/-!
# Verification of the climate-learn metric engine

Shallow embedding of `src/climate_learn/metrics/functional.py` over the reals.

Modelling conventions:
- A tensor of shape `[N, C, H, W]` is a function `Fin N → Fin C → Fin H → Fin W → ℝ`;
  floating-point values are modelled as real numbers.
- A latitude-weight tensor of shape `[1, 1, H, 1]` is a function `Fin H → ℝ`; the
  model fixes its latitude extent to `H`, the error tensor's extent, so the
  resampling branch of `mse` (functional.py line 17) is never taken.
- `torch.Tensor.mean` over an index set is the sum divided by the cardinality.
- A metric that raises a Python exception is modelled as returning `none`.
- A 0-dimensional scalar result (`aggregate_only = True`) is modelled as a
  one-element list, and a 1-dimensional result as a list of reals.
-/

namespace ClimateLearn

/-- A field tensor of shape `[N, C, H, W]`: batch, channel, latitude, longitude. -/
abbrev Tensor (N C H W : ℕ) : Type := Fin N → Fin C → Fin H → Fin W → ℝ

/-- A latitude-weight tensor of shape `[1, 1, H, 1]`, broadcast over batch,
channel and longitude. -/
abbrev LatWeights (H : ℕ) : Type := Fin H → ℝ

/-- torch `.mean()` over a finite index type: sum of the entries divided by
the number of entries. -/
noncomputable def fmean {α : Type} [Fintype α] (f : α → ℝ) : ℝ :=
  (∑ a, f a) / (Fintype.card α : ℝ)

/-- The arithmetic mean of the entries of a list. -/
noncomputable def listMean (l : List ℝ) : ℝ := l.sum / (l.length : ℝ)

variable {N C H W : ℕ}

/-- `(pred - target).square()` (functional.py lines 15 and 33). -/
noncomputable def sqErr (pred target : Tensor N C H W)
    (n : Fin N) (c : Fin C) (h : Fin H) (w : Fin W) : ℝ :=
  (pred n c h w - target n c h w) ^ 2

/-- The `error` tensor of `mse` after latitude weighting (lines 15-19): the
squared error multiplied by the broadcast latitude weights.  Only the branch
with weights present is reachable, see `mse`. -/
noncomputable def mseError (pred target : Tensor N C H W) (lw : LatWeights H)
    (n : Fin N) (c : Fin C) (h : Fin H) (w : Fin W) : ℝ :=
  sqErr pred target n c h w * lw h

/-- `per_channel_losses = error.mean([0, 2, 3])` of `mse` (line 20). -/
noncomputable def msePerChannel (pred target : Tensor N C H W) (lw : LatWeights H)
    (c : Fin C) : ℝ :=
  fmean (fun y : Fin N × Fin H × Fin W => mseError pred target lw y.1 c y.2.1 y.2.2)

/-- `loss = error.mean()` of `mse` (line 21): the mean over all four axes. -/
noncomputable def mseLoss (pred target : Tensor N C H W) (lw : LatWeights H) : ℝ :=
  fmean (fun x : Fin N × Fin C × Fin H × Fin W =>
    mseError pred target lw x.1 x.2.1 x.2.2.1 x.2.2.2)

/-- `mse` (lines 9-24).  The code evaluates `lat_weights.shape[2]` (line 16)
before the `lat_weights is not None` test (line 18), so a call without latitude
weights raises `AttributeError`; that call is modelled as `none`. -/
noncomputable def mse (pred target : Tensor N C H W) (aggregate_only : Bool)
    (lat_weights : Option (LatWeights H)) : Option (List ℝ) :=
  match lat_weights with
  | none => none
  | some lw =>
      if aggregate_only then some [mseLoss pred target lw]
      else some (List.ofFn (msePerChannel pred target lw) ++ [mseLoss pred target lw])

/-- The `error` tensor of `rmse` (lines 33-35): the squared error, multiplied
by the latitude weights when they are supplied. -/
noncomputable def rmseError (pred target : Tensor N C H W)
    (lat_weights : Option (LatWeights H))
    (n : Fin N) (c : Fin C) (h : Fin H) (w : Fin W) : ℝ :=
  match lat_weights with
  | none => sqErr pred target n c h w
  | some lw => sqErr pred target n c h w * lw h

/-- `per_channel_losses = error.mean([2, 3]).sqrt().mean(0)` of `rmse` (line 36):
spatial mean per sample, square root per sample, then mean over the batch. -/
noncomputable def rmsePerChannel (pred target : Tensor N C H W)
    (lat_weights : Option (LatWeights H)) (c : Fin C) : ℝ :=
  fmean (fun n : Fin N => Real.sqrt (fmean
    (fun hw : Fin H × Fin W => rmseError pred target lat_weights n c hw.1 hw.2)))

/-- `rmse` (lines 27-40). -/
noncomputable def rmse (pred target : Tensor N C H W) (aggregate_only : Bool)
    (lat_weights : Option (LatWeights H)) : List ℝ :=
  if aggregate_only then [fmean (rmsePerChannel pred target lat_weights)]
  else List.ofFn (rmsePerChannel pred target lat_weights)
    ++ [fmean (rmsePerChannel pred target lat_weights)]

/-- The `error` field of `nrmses` (lines 50-53): squared difference of the
batch-mean fields, multiplied by the (squeezed) latitude weights when they are
supplied. -/
noncomputable def nrmsesError (pred target : Tensor N C H W)
    (lat_weights : Option (LatWeights H)) (c : Fin C) (h : Fin H) (w : Fin W) : ℝ :=
  match lat_weights with
  | none => (fmean (fun n : Fin N => pred n c h w)
      - fmean (fun n : Fin N => target n c h w)) ^ 2
  | some lw => ((fmean (fun n : Fin N => pred n c h w)
      - fmean (fun n : Fin N => target n c h w)) ^ 2) * lw h

/-- `per_channel_losses = error.mean(dim=(-2,-1)).sqrt() / y_normalization`
of `nrmses` (line 54), with `y_normalization = clim.squeeze()` one value per
channel (line 50). -/
noncomputable def nrmsesPerChannel (pred target : Tensor N C H W) (clim : Fin C → ℝ)
    (lat_weights : Option (LatWeights H)) (c : Fin C) : ℝ :=
  Real.sqrt (fmean (fun hw : Fin H × Fin W =>
    nrmsesError pred target lat_weights c hw.1 hw.2)) / clim c

/-- `nrmses` (lines 43-58). -/
noncomputable def nrmses (pred target : Tensor N C H W) (clim : Fin C → ℝ)
    (aggregate_only : Bool) (lat_weights : Option (LatWeights H)) : List ℝ :=
  if aggregate_only then [fmean (nrmsesPerChannel pred target clim lat_weights)]
  else List.ofFn (nrmsesPerChannel pred target clim lat_weights)
    ++ [fmean (nrmsesPerChannel pred target clim lat_weights)]

/-- The per-sample, per-channel spatial means of `nrmseg` (lines 69-73):
`(x * lat_weights).mean(dim=(-2, -1))` when weights are supplied, otherwise
`x.mean(dim=(-2, -1))`. -/
noncomputable def nrmsegSpatialMean (x : Tensor N C H W)
    (lat_weights : Option (LatWeights H)) (n : Fin N) (c : Fin C) : ℝ :=
  match lat_weights with
  | none => fmean (fun hw : Fin H × Fin W => x n c hw.1 hw.2)
  | some lw => fmean (fun hw : Fin H × Fin W => x n c hw.1 hw.2 * lw hw.1)

/-- `per_channel_losses = error.mean(0).sqrt() / y_normalization` of `nrmseg`
(lines 74-75), where `error` is the squared difference of the per-sample
spatial means. -/
noncomputable def nrmsegPerChannel (pred target : Tensor N C H W) (clim : Fin C → ℝ)
    (lat_weights : Option (LatWeights H)) (c : Fin C) : ℝ :=
  Real.sqrt (fmean (fun n : Fin N =>
    (nrmsegSpatialMean pred lat_weights n c - nrmsegSpatialMean target lat_weights n c) ^ 2))
    / clim c

/-- `nrmseg` (lines 61-79). -/
noncomputable def nrmseg (pred target : Tensor N C H W) (clim : Fin C → ℝ)
    (aggregate_only : Bool) (lat_weights : Option (LatWeights H)) : List ℝ :=
  if aggregate_only then [fmean (nrmsegPerChannel pred target clim lat_weights)]
  else List.ofFn (nrmsegPerChannel pred target clim lat_weights)
    ++ [fmean (nrmsegPerChannel pred target clim lat_weights)]

/-- The anomaly field `x - climatology` of `acc` (lines 89-90); the climatology
broadcasts over the batch axis. -/
noncomputable def anomaly (x : Tensor N C H W) (clim : Fin C → Fin H → Fin W → ℝ)
    (n : Fin N) (c : Fin C) (h : Fin H) (w : Fin W) : ℝ :=
  x n c h w - clim c h w

/-- The primed field `pred[:,i] - pred[:,i].mean()` of `acc` (lines 93-94):
the anomaly of channel `c`, recentered by its mean over the pooled
batch-spatial population. -/
noncomputable def prime (x : Tensor N C H W) (clim : Fin C → Fin H → Fin W → ℝ)
    (c : Fin C) (y : Fin N × Fin H × Fin W) : ℝ :=
  anomaly x clim y.1 c y.2.1 y.2.2
    - fmean (fun z : Fin N × Fin H × Fin W => anomaly x clim z.1 c z.2.1 z.2.2)

/-- `numer = (lat_weights * pred_prime * target_prime).sum()` of `acc` (line 95). -/
noncomputable def accNumer (pred target : Tensor N C H W)
    (clim : Fin C → Fin H → Fin W → ℝ) (lw : LatWeights H) (c : Fin C) : ℝ :=
  ∑ y : Fin N × Fin H × Fin W,
    lw y.2.1 * prime pred clim c y * prime target clim c y

/-- `denom1 = (lat_weights * pred_prime.square()).sum()` of `acc` (line 96). -/
noncomputable def accDenom1 (pred target : Tensor N C H W)
    (clim : Fin C → Fin H → Fin W → ℝ) (lw : LatWeights H) (c : Fin C) : ℝ :=
  ∑ y : Fin N × Fin H × Fin W, lw y.2.1 * (prime pred clim c y) ^ 2

/-- `denom2 = (lat_weights * target_prime.square()).sum()` of `acc` (line 97). -/
noncomputable def accDenom2 (pred target : Tensor N C H W)
    (clim : Fin C → Fin H → Fin W → ℝ) (lw : LatWeights H) (c : Fin C) : ℝ :=
  ∑ y : Fin N × Fin H × Fin W, lw y.2.1 * (prime target clim c y) ^ 2

/-- The per-channel entries `numer / (denom1 * denom2).sqrt()` of `acc`
(line 98).  With a zero denominator torch produces a non-numeric artifact
(NaN or inf) rather than raising; in this real-valued model the division
artifact is the junk value `x / 0 = 0`. -/
noncomputable def accPerChannel (pred target : Tensor N C H W)
    (clim : Fin C → Fin H → Fin W → ℝ) (lw : LatWeights H) (c : Fin C) : ℝ :=
  accNumer pred target clim lw c
    / Real.sqrt (accDenom1 pred target clim lw c * accDenom2 pred target clim lw c)

/-- `acc` (lines 82-103).  The expression `lat_weights * pred_prime` (line 95)
raises `TypeError` when `lat_weights` is `None`; that call is modelled as
`none`. -/
noncomputable def acc (pred target : Tensor N C H W)
    (climatology : Fin C → Fin H → Fin W → ℝ) (aggregate_only : Bool)
    (lat_weights : Option (LatWeights H)) : Option (List ℝ) :=
  match lat_weights with
  | none => none
  | some lw =>
      if aggregate_only then some [fmean (accPerChannel pred target climatology lw)]
      else some (List.ofFn (accPerChannel pred target climatology lw)
        ++ [fmean (accPerChannel pred target climatology lw)])

/-- The channel index selected by `torch.tensor_split(x, 2, 1)` for an even
channel count `2*m`: group `g` holds the `m` consecutive channels starting at
`g*m`. -/
def splitIdx (m : ℕ) (g : Fin 2) (c : Fin m) : Fin (2 * m) :=
  ⟨g.val * m + c.val, by
    have hg := g.isLt
    have hc := c.isLt
    calc g.val * m + c.val < g.val * m + m := by omega
    _ ≤ 2 * m := by nlinarith⟩

/-- `_flatten_channel_wise` (lines 136-144) for an even channel count `2*m`:
`torch.tensor_split(x, 2, 1)` always yields exactly two groups of `m` channels
each, and each group is flattened into one row.  The row of group `g` is
modelled as a function on the product index `[N, m, H, W]`, the row-major
flattening order of the `[N, m, H, W]` part.  See `flattenChannelWiseGen`
for the model at an arbitrary channel count, including the `torch.stack`
failure on odd counts. -/
noncomputable def flatten_channel_wise {m : ℕ} (x : Tensor N (2 * m) H W)
    (g : Fin 2) (i : Fin N × Fin m × Fin H × Fin W) : ℝ :=
  x i.1 (splitIdx m g i.2.1) i.2.2.1 i.2.2.2

/-- The `eps` clamp of `torch.nn.functional.cosine_similarity` (default 1e-8). -/
noncomputable def eps : ℝ := 1 / 10 ^ 8

/-- `F.cosine_similarity` along the flattened axis: the dot product divided by
the product of the Euclidean norms, each clamped below by `eps`. -/
noncomputable def cosineSim {α : Type} [Fintype α] (a b : α → ℝ) : ℝ :=
  (∑ i, a i * b i)
    / (max (Real.sqrt (∑ i, a i ^ 2)) eps * max (Real.sqrt (∑ i, b i ^ 2)) eps)

/-- The mean-removal step of `pearson` (lines 113-114): each row minus its own
mean (`x - x.mean(1, keepdims=True)`). -/
noncomputable def centerRows {β : Type} [Fintype β] (x : Fin 2 → β → ℝ)
    (g : Fin 2) (i : β) : ℝ :=
  x g i - fmean (x g)

/-- `per_channel_coeffs = F.cosine_similarity(pred, target)` of `pearson`
(line 115), applied to the centered rows of the channel-flattening helper. -/
noncomputable def pearsonCoeffs {m : ℕ} (pred target : Tensor N (2 * m) H W)
    (g : Fin 2) : ℝ :=
  cosineSim (centerRows (flatten_channel_wise pred) g)
    (centerRows (flatten_channel_wise target) g)

/-- `pearson` (lines 106-120). -/
noncomputable def pearson {m : ℕ} (pred target : Tensor N (2 * m) H W)
    (aggregate_only : Bool) : List ℝ :=
  if aggregate_only then [fmean (pearsonCoeffs pred target)]
  else List.ofFn (pearsonCoeffs pred target) ++ [fmean (pearsonCoeffs pred target)]

/-- Row-major flattening `xi.flatten()` of a chunk of `size` consecutive
channels starting at channel `base` of a field tensor (torch iterates the
indices n, c, h, w with w fastest). -/
noncomputable def chunkFlatten (x : Tensor N C H W) (base size : ℕ)
    (hbs : base + size ≤ C) : List ℝ :=
  (List.finRange N).flatMap (fun n =>
    (List.finRange size).flatMap (fun s =>
      (List.finRange H).flatMap (fun hh =>
        (List.finRange W).map (fun w =>
          x n ⟨base + s.val, by have := s.isLt; omega⟩ hh w))))

/-- `_flatten_channel_wise` (lines 136-144) for an arbitrary channel count:
`torch.tensor_split(x, 2, 1)` yields a first chunk of `(C+1)/2` and a second
chunk of `C/2` channels; each chunk is flattened into one row, and
`torch.stack` then requires the two rows to have equal length, raising an
error otherwise (modelled as `none`).  The rows have equal length exactly
when `C` is even or the tensor is empty (`N*H*W = 0`). -/
noncomputable def flattenChannelWiseGen (x : Tensor N C H W) :
    Option (List ℝ × List ℝ) :=
  let r0 := chunkFlatten x 0 ((C + 1) / 2) (by omega)
  let r1 := chunkFlatten x ((C + 1) / 2) (C / 2) (by omega)
  if r0.length = r1.length then some (r0, r1) else none

/-- The mean-removal step of `pearson` (lines 113-114) on a row stored as a
list: every entry minus the row's mean. -/
noncomputable def centerList (l : List ℝ) : List ℝ :=
  l.map (fun v => v - listMean l)

/-- `F.cosine_similarity` of two equal-length rows stored as lists, with
torch's default `eps` clamp on each norm. -/
noncomputable def cosineSimList (a b : List ℝ) : ℝ :=
  ((a.zip b).map (fun p => p.1 * p.2)).sum
    / (max (Real.sqrt ((a.map (fun v => v ^ 2)).sum)) eps
      * max (Real.sqrt ((b.map (fun v => v ^ 2)).sum)) eps)

/-- `pearson` (lines 106-120) over the general channel-flattening model, for
an arbitrary channel count: when `torch.stack` inside the flattening helper
raises (odd channel count on a nonempty tensor) the exception propagates to
the caller (`none`); otherwise the two per-group coefficients are followed by
their mean.  On even channel counts this agrees with `pearson`. -/
noncomputable def pearsonGen (pred target : Tensor N C H W)
    (aggregate_only : Bool) : Option (List ℝ) :=
  match flattenChannelWiseGen pred, flattenChannelWiseGen target with
  | some (p0, p1), some (t0, t1) =>
      let c0 := cosineSimList (centerList p0) (centerList t0)
      let c1 := cosineSimList (centerList p1) (centerList t1)
      if aggregate_only then some [(c0 + c1) / 2]
      else some [c0, c1, (c0 + c1) / 2]
  | _, _ => none

/-- Per-channel `target.mean([0, 2, 3]) - pred.mean([0, 2, 3])` of `mean_bias`
(line 130). -/
noncomputable def meanBiasPerChannel (pred target : Tensor N C H W) (c : Fin C) : ℝ :=
  fmean (fun y : Fin N × Fin H × Fin W => target y.1 c y.2.1 y.2.2)
    - fmean (fun y : Fin N × Fin H × Fin W => pred y.1 c y.2.1 y.2.2)

/-- `result = target.mean() - pred.mean()` of `mean_bias` (line 128): the
difference of the whole-tensor means. -/
noncomputable def meanBiasAgg (pred target : Tensor N C H W) : ℝ :=
  fmean (fun x : Fin N × Fin C × Fin H × Fin W => target x.1 x.2.1 x.2.2.1 x.2.2.2)
    - fmean (fun x : Fin N × Fin C × Fin H × Fin W => pred x.1 x.2.1 x.2.2.1 x.2.2.2)

/-- `mean_bias` (lines 123-133). -/
noncomputable def mean_bias (pred target : Tensor N C H W)
    (aggregate_only : Bool) : List ℝ :=
  if aggregate_only then [meanBiasAgg pred target]
  else List.ofFn (meanBiasPerChannel pred target) ++ [meanBiasAgg pred target]

/-- Channel `c` of a field tensor, pooled over the batch and spatial axes:
the family of `N*H*W` values of that channel (the spec's "per-channel
flattened representation", section 4.3). -/
def channelPool (x : Tensor N C H W) (c : Fin C) (y : Fin N × Fin H × Fin W) : ℝ :=
  x y.1 c y.2.1 y.2.2

/-- Pearson correlation coefficient of two finite families of reals, the
spec's reference definition (section 4.3): covariance of the mean-removed
families divided by the product of their standard deviations (up to the
common population factor, which cancels). -/
noncomputable def pearsonCorr {α : Type} [Fintype α] (a b : α → ℝ) : ℝ :=
  (∑ i, (a i - fmean a) * (b i - fmean b))
    / (Real.sqrt (∑ i, (a i - fmean a) ^ 2) * Real.sqrt (∑ i, (b i - fmean b) ^ 2))

/-! ## Concrete input tensors used for evaluations -/

/-- The all-zero field tensor. -/
noncomputable def zerosT (N C H W : ℕ) : Tensor N C H W := fun _ _ _ _ => 0

/-- The all-one field tensor. -/
noncomputable def onesT (N C H W : ℕ) : Tensor N C H W := fun _ _ _ _ => 1

/-- A two-sample, one-channel, one-cell tensor with values 0 and 2. -/
noncomputable def predTwoSamples : Tensor 2 1 1 1 :=
  fun n _ _ _ => if n.val = 0 then 0 else 2

/-- A two-sample, one-channel, one-cell tensor with values 0 and 4. -/
noncomputable def predTwoSamplesB : Tensor 2 1 1 1 :=
  fun n _ _ _ => if n.val = 0 then 0 else 4

/-- A two-channel input with both channels holding the zero-mean pooled values
`(1, -1)` over one sample, one latitude and two longitudes. -/
noncomputable def predTwoChannels : Tensor 1 (2 * 1) 1 2 :=
  fun _ _ _ w => if w.val = 0 then 1 else -1

/-- A four-channel prediction: channel 0 holds `(1, 0)`, channel 1 holds
`(0, 1)`, channels 2 and 3 are zero. -/
noncomputable def predFourChannels : Tensor 1 (2 * 2) 1 2 :=
  fun _ c _ w =>
    if c.val = 0 then (if w.val = 0 then 1 else 0)
    else if c.val = 1 then (if w.val = 0 then 0 else 1)
    else 0

/-- A four-channel target: channel 0 holds `(1, 0)` (equal to the prediction),
channel 1 holds `(0, -1)` (the negated prediction), channels 2 and 3 are zero. -/
noncomputable def targetFourChannels : Tensor 1 (2 * 2) 1 2 :=
  fun _ c _ w =>
    if c.val = 0 then (if w.val = 0 then 1 else 0)
    else if c.val = 1 then (if w.val = 0 then 0 else -1)
    else 0

/-! ## Helper lemmas about means over product index types -/

theorem listMean_ofFn {n : ℕ} (f : Fin n → ℝ) : listMean (List.ofFn f) = fmean f := by
  simp [listMean, fmean, List.sum_ofFn]

theorem fmean_fin1 (f : Fin 1 → ℝ) : fmean f = f 0 := by
  simp [fmean]

/-- A mean over the four-axis index set equals the mean over channels of the
per-channel means over the remaining axes: pooled and per-channel averaging
agree exactly because every channel has the same population size. -/
theorem fmean_prod_channel {N C H W : ℕ} (f : Fin N → Fin C → Fin H → Fin W → ℝ) :
    fmean (fun x : Fin N × Fin C × Fin H × Fin W => f x.1 x.2.1 x.2.2.1 x.2.2.2)
      = fmean (fun c : Fin C =>
          fmean (fun y : Fin N × Fin H × Fin W => f y.1 c y.2.1 y.2.2)) := by
  simp only [fmean, Fintype.sum_prod_type, Fintype.card_prod, Fintype.card_fin]
  rw [← Finset.sum_div, div_div, Finset.sum_comm]
  congr 1
  push_cast
  ring

theorem sum_fin1_mid {N H W : ℕ} (f : Fin N × Fin 1 × Fin H × Fin W → ℝ) :
    ∑ x : Fin N × Fin 1 × Fin H × Fin W, f x
      = ∑ y : Fin N × Fin H × Fin W, f (y.1, 0, y.2.1, y.2.2) := by
  simp [Fintype.sum_prod_type, Fin.sum_univ_one]

theorem fmean_fin1_mid {N H W : ℕ} (f : Fin N × Fin 1 × Fin H × Fin W → ℝ) :
    fmean f = fmean (fun y : Fin N × Fin H × Fin W => f (y.1, 0, y.2.1, y.2.2)) := by
  simp only [fmean, sum_fin1_mid, Fintype.card_prod, Fintype.card_fin]
  norm_num

theorem fmean_fin1_left {β : Type} [Fintype β] (f : Fin 1 × β → ℝ) :
    fmean f = fmean (fun b => f (0, b)) := by
  simp only [fmean, Fintype.sum_prod_type, Fin.sum_univ_one, Fintype.card_prod,
    Fintype.card_fin]
  norm_num

theorem getElem_ofFn_concat {n : ℕ} (f : Fin n → ℝ) (x : ℝ) (c : Fin n) :
    (List.ofFn f ++ [x])[(c.val : ℕ)]? = some (f c) := by
  have h1 : (c.val : ℕ) < (List.ofFn f).length := by simp [c.isLt]
  rw [List.getElem?_append, if_pos h1, List.getElem?_eq_getElem h1]
  simp

theorem sum_map_const_nat {α : Type} (l : List α) (k : ℕ) :
    (List.map (fun _ => k) l).sum = l.length * k := by
  induction l with
  | nil => simp
  | cons a t ih => simp [ih, Nat.succ_mul, Nat.add_comm]

theorem chunkFlatten_length {N C H W : ℕ} (x : Tensor N C H W) (base size : ℕ)
    (hbs : base + size ≤ C) :
    (chunkFlatten x base size hbs).length = N * (size * (H * W)) := by
  simp [chunkFlatten, List.length_flatMap, Function.comp_def, sum_map_const_nat,
    List.length_map, List.length_finRange]

/-- The two chunks of the 2-way channel split flatten to rows of equal length
exactly when the channel count is even or the tensor is empty. -/
theorem stack_len_eq_iff (N C H W : ℕ) :
    N * ((C + 1) / 2 * (H * W)) = N * (C / 2 * (H * W))
      ↔ (C % 2 = 0 ∨ N * (H * W) = 0) := by
  have e0 : N * ((C + 1) / 2 * (H * W)) = (C + 1) / 2 * (N * (H * W)) := by ring
  have e1 : N * (C / 2 * (H * W)) = C / 2 * (N * (H * W)) := by ring
  rw [e0, e1]
  generalize N * (H * W) = k
  rcases Nat.eq_zero_or_pos k with hk | hk
  · subst hk
    simp
  · rw [Nat.mul_right_cancel_iff hk]
    omega

/-- The global `error.mean()` of `mse` is the mean of the per-channel means. -/
theorem mseLoss_eq_fmean {N C H W : ℕ} (pred target : Tensor N C H W)
    (lw : LatWeights H) :
    mseLoss pred target lw = fmean (msePerChannel pred target lw) := by
  simpa [mseLoss, msePerChannel] using
    fmean_prod_channel (fun n c h w => mseError pred target lw n c h w)

theorem fmean_sub {α : Type} [Fintype α] (f g : α → ℝ) :
    fmean (fun a => f a - g a) = fmean f - fmean g := by
  simp [fmean, Finset.sum_sub_distrib, sub_div]

/-- The whole-tensor difference of means of `mean_bias` is the mean of the
per-channel differences of means. -/
theorem meanBiasAgg_eq_fmean {N C H W : ℕ} (pred target : Tensor N C H W) :
    meanBiasAgg pred target = fmean (meanBiasPerChannel pred target) := by
  rw [meanBiasAgg,
    fmean_prod_channel (fun n c h w => target n c h w),
    fmean_prod_channel (fun n c h w => pred n c h w),
    ← fmean_sub]
  rfl

/-! ## Claim theorems -/

/-- Claim C2 (code bug): calling `mse` without latitude weights does not return
the unweighted mean squared error; the code dereferences `lat_weights.shape[2]`
(line 16) before the `is not None` guard (line 18) and raises `AttributeError`
for every input, modelled here as `none`. -/
theorem mse_none_raises (N C H W : ℕ) (pred target : Tensor N C H W)
    (aggregate_only : Bool) : mse pred target aggregate_only none = none := rfl

/-- Claim C4: for every metric in the engine, the aggregate score is the
unweighted arithmetic mean of the per-channel scores: with `aggregate_only`
false the output is the per-channel list followed by its own mean as the final
element, and with `aggregate_only` true the returned scalar is that same mean.
This includes `mse`, whose aggregate is computed as the mean over all axes, and
`mean_bias`, whose aggregate is computed as the difference of whole-tensor
means. -/
theorem aggregate_mean_contract (N C H W m : ℕ) (pred target : Tensor N C H W)
    (lw : LatWeights H) (lwo : Option (LatWeights H)) (clim : Fin C → ℝ)
    (climT : Fin C → Fin H → Fin W → ℝ) (p2 t2 : Tensor N (2 * m) H W) :
    (mse pred target false (some lw)
        = some (List.ofFn (msePerChannel pred target lw)
          ++ [listMean (List.ofFn (msePerChannel pred target lw))])
      ∧ mse pred target true (some lw)
        = some [listMean (List.ofFn (msePerChannel pred target lw))])
    ∧ (rmse pred target false lwo
        = List.ofFn (rmsePerChannel pred target lwo)
          ++ [listMean (List.ofFn (rmsePerChannel pred target lwo))]
      ∧ rmse pred target true lwo
        = [listMean (List.ofFn (rmsePerChannel pred target lwo))])
    ∧ (nrmses pred target clim false lwo
        = List.ofFn (nrmsesPerChannel pred target clim lwo)
          ++ [listMean (List.ofFn (nrmsesPerChannel pred target clim lwo))]
      ∧ nrmses pred target clim true lwo
        = [listMean (List.ofFn (nrmsesPerChannel pred target clim lwo))])
    ∧ (nrmseg pred target clim false lwo
        = List.ofFn (nrmsegPerChannel pred target clim lwo)
          ++ [listMean (List.ofFn (nrmsegPerChannel pred target clim lwo))]
      ∧ nrmseg pred target clim true lwo
        = [listMean (List.ofFn (nrmsegPerChannel pred target clim lwo))])
    ∧ (acc pred target climT false (some lw)
        = some (List.ofFn (accPerChannel pred target climT lw)
          ++ [listMean (List.ofFn (accPerChannel pred target climT lw))])
      ∧ acc pred target climT true (some lw)
        = some [listMean (List.ofFn (accPerChannel pred target climT lw))])
    ∧ (pearson p2 t2 false
        = List.ofFn (pearsonCoeffs p2 t2)
          ++ [listMean (List.ofFn (pearsonCoeffs p2 t2))]
      ∧ pearson p2 t2 true = [listMean (List.ofFn (pearsonCoeffs p2 t2))])
    ∧ (mean_bias pred target false
        = List.ofFn (meanBiasPerChannel pred target)
          ++ [listMean (List.ofFn (meanBiasPerChannel pred target))]
      ∧ mean_bias pred target true
        = [listMean (List.ofFn (meanBiasPerChannel pred target))]) := by
  refine ⟨⟨?_, ?_⟩, ⟨?_, ?_⟩, ⟨?_, ?_⟩, ⟨?_, ?_⟩, ⟨?_, ?_⟩, ⟨?_, ?_⟩, ?_, ?_⟩ <;>
    simp [mse, rmse, nrmses, nrmseg, acc, pearson, mean_bias, listMean_ofFn,
      mseLoss_eq_fmean, meanBiasAgg_eq_fmean] <;>
    simp [fmean, listMean, Fin.sum_univ_two]

/-- Claim C3 counterexample: on a four-channel input, `pearson` with
`aggregate_only` false returns a sequence of length 3, not `C + 1 = 5`:
the channel-flattening helper always splits the channel axis into exactly
two groups. -/
theorem output_length_pearson_cex :
    Option.map List.length (pearsonGen (zerosT 1 4 1 1) (zerosT 1 4 1 1) false)
      ≠ some (4 + 1) := by
  simp only [pearsonGen, flattenChannelWiseGen, chunkFlatten_length]
  norm_num

/-- Claim C3 (amended): with `aggregate_only` false, every metric except
`pearson` returns a sequence of length exactly `C + 1` — the `C` per-channel
values followed by the aggregate (for `mse` and `acc` this requires latitude
weights to be present, since those metrics fail without them) — while
`pearson` never returns `C + 1` elements except when `C = 2`: the hardcoded
two-way channel split makes it return exactly 3 elements whenever the two
chunks flatten to rows of equal length (that is, when `C` is even or the
tensor is empty), and raise an error (`torch.stack` on rows of unequal
length) for an odd `C` on a nonempty tensor. -/
theorem output_length_amended (N C H W : ℕ) (pred target : Tensor N C H W)
    (lw : LatWeights H) (lwo : Option (LatWeights H)) (clim : Fin C → ℝ)
    (climT : Fin C → Fin H → Fin W → ℝ) :
    Option.map List.length (mse pred target false (some lw)) = some (C + 1)
    ∧ (rmse pred target false lwo).length = C + 1
    ∧ (nrmses pred target clim false lwo).length = C + 1
    ∧ (nrmseg pred target clim false lwo).length = C + 1
    ∧ Option.map List.length (acc pred target climT false (some lw)) = some (C + 1)
    ∧ (mean_bias pred target false).length = C + 1
    ∧ Option.map List.length (pearsonGen pred target false)
        = (if C % 2 = 0 ∨ N * (H * W) = 0 then some 3 else none) := by
  refine ⟨?_, ?_, ?_, ?_, ?_, ?_, ?_⟩
  · simp [mse]
  · simp [rmse]
  · simp [nrmses]
  · simp [nrmseg]
  · simp [acc]
  · simp [mean_bias]
  · simp only [pearsonGen, flattenChannelWiseGen, chunkFlatten_length,
      stack_len_eq_iff]
    by_cases hq : C % 2 = 0 ∨ N = 0 ∨ H = 0 ∨ W = 0
    · simp [hq]
    · simp [hq]

/-- Claim C10: for every pair of input tensors with an even channel count
`C = 2*m`, `pearson` with `aggregate_only` false returns exactly 3 elements —
the two group coefficients followed by their mean — independent of the value
of `C`, because the channel-flattening helper always splits the channel axis
into exactly two groups. -/
theorem pearson_always_three (N H W m : ℕ) (pred target : Tensor N (2 * m) H W) :
    pearson pred target false
      = [pearsonCoeffs pred target 0, pearsonCoeffs pred target 1,
        (pearsonCoeffs pred target 0 + pearsonCoeffs pred target 1) / 2]
    ∧ (pearson pred target false).length = 3 := by
  constructor
  · simp [pearson, List.ofFn_succ, fmean, Fin.sum_univ_two]
  · simp [pearson]

/-- Claim C8 counterexample: on an input whose channel has no variance at all
(all-zero prediction, target and climatology), both weighted sum-of-squares
denominators of `acc` are zero, yet `acc` does not fail: it returns a value
(the division artifact of `0 / sqrt 0`), contradicting the claim that a zero
denominator makes the call fail. -/
theorem acc_zero_denom_cex :
    accDenom1 (zerosT 1 1 1 1) (zerosT 1 1 1 1) (fun _ _ _ => 0) (fun _ => 1) 0 = 0
    ∧ accDenom2 (zerosT 1 1 1 1) (zerosT 1 1 1 1) (fun _ _ _ => 0) (fun _ => 1) 0 = 0
    ∧ acc (zerosT 1 1 1 1) (zerosT 1 1 1 1) (fun _ _ _ => 0) false (some fun _ => 1)
        = some [0, 0] := by
  refine ⟨?_, ?_, ?_⟩ <;>
    simp [acc, accPerChannel, accNumer, accDenom1, accDenom2, prime, anomaly,
      zerosT, fmean, List.ofFn_succ]

/-- Claim C8 (amended): `acc` fails (raises a `TypeError`, modelled as `none`)
whenever `lat_weights` is absent; but whenever weights are present it always
returns a value — including when either per-channel denominator evaluates to
zero — silently producing the division artifact (NaN in torch) rather than
failing. -/
theorem acc_weights_required (N C H W : ℕ) (pred target : Tensor N C H W)
    (climT : Fin C → Fin H → Fin W → ℝ) (aggregate_only : Bool) :
    acc pred target climT aggregate_only none = none
    ∧ ∀ lw : LatWeights H,
        (acc pred target climT aggregate_only (some lw)).isSome = true := by
  refine ⟨rfl, fun lw => ?_⟩
  cases aggregate_only <;> simp [acc]

/-- Claim C5: for every input and latitude weighting, the per-channel `rmse`
score is the mean-of-sqrt across samples — the (possibly weighted) squared
error is averaged over the spatial axes per sample, square-rooted per sample,
and only then averaged over the batch axis — and on a concrete two-sample
input this differs from the square root of the batch-and-space mean. -/
theorem rmse_mean_of_sqrt :
    (∀ (N C H W : ℕ) (pred target : Tensor N C H W) (lw : LatWeights H) (c : Fin C),
      (rmse pred target false (some lw))[(c.val : ℕ)]?
        = some (fmean (fun n : Fin N => Real.sqrt (fmean (fun hw : Fin H × Fin W =>
            (pred n c hw.1 hw.2 - target n c hw.1 hw.2) ^ 2 * lw hw.1)))))
    ∧ (∀ (N C H W : ℕ) (pred target : Tensor N C H W) (c : Fin C),
      (rmse pred target false none)[(c.val : ℕ)]?
        = some (fmean (fun n : Fin N => Real.sqrt (fmean (fun hw : Fin H × Fin W =>
            (pred n c hw.1 hw.2 - target n c hw.1 hw.2) ^ 2)))))
    ∧ rmsePerChannel predTwoSamples (zerosT 2 1 1 1) none 0
        ≠ Real.sqrt (fmean (fun y : Fin 2 × Fin 1 × Fin 1 =>
            rmseError predTwoSamples (zerosT 2 1 1 1) none y.1 0 y.2.1 y.2.2)) := by
  refine ⟨?_, ?_, ?_⟩
  · intro N C H W pred target lw c
    simp [rmse, getElem_ofFn_concat, rmsePerChannel, rmseError, sqErr]
  · intro N C H W pred target c
    simp [rmse, getElem_ofFn_concat, rmsePerChannel, rmseError, sqErr]
  · have hl : rmsePerChannel predTwoSamples (zerosT 2 1 1 1) none 0 = 1 := by
      simp [rmsePerChannel, rmseError, sqErr, predTwoSamples, zerosT, fmean,
        Fintype.sum_prod_type, Fin.sum_univ_two, Fin.sum_univ_one]
    have hr : (fmean (fun y : Fin 2 × Fin 1 × Fin 1 =>
        rmseError predTwoSamples (zerosT 2 1 1 1) none y.1 0 y.2.1 y.2.2)) = 2 := by
      simp [rmseError, sqErr, predTwoSamples, zerosT, fmean,
        Fintype.sum_prod_type, Fin.sum_univ_two, Fin.sum_univ_one]
      norm_num
    rw [hl, hr]
    intro h
    have h2 : Real.sqrt 2 ^ 2 = 2 := Real.sq_sqrt (by norm_num)
    rw [← h] at h2
    norm_num at h2

/-- Claim C6: with batch size `N = 1` and the same supplied latitude weights
(of matching latitude extent), every per-channel `rmse` value is the square
root of the corresponding per-channel `mse` value; and on a concrete input
with `N = 2` the identity fails, so it holds only in the single-sample case. -/
theorem rmse_sqrt_mse_batch1 :
    (∀ (C H W : ℕ) (pred target : Tensor 1 C H W) (lw : LatWeights H) (c : Fin C),
      rmsePerChannel pred target (some lw) c
        = Real.sqrt (msePerChannel pred target lw c))
    ∧ rmsePerChannel predTwoSamplesB (zerosT 2 1 1 1) (some fun _ => 1) 0
        ≠ Real.sqrt (msePerChannel predTwoSamplesB (zerosT 2 1 1 1) (fun _ => 1) 0) := by
  constructor
  · intro C H W pred target lw c
    rw [rmsePerChannel, msePerChannel, fmean_fin1, fmean_fin1_left]
    rfl
  · have hl : rmsePerChannel predTwoSamplesB (zerosT 2 1 1 1) (some fun _ => 1) 0 = 2 := by
      simp [rmsePerChannel, rmseError, sqErr, predTwoSamplesB, zerosT, fmean,
        Fintype.sum_prod_type, Fin.sum_univ_two, Fin.sum_univ_one]
      norm_num
    have hr : msePerChannel predTwoSamplesB (zerosT 2 1 1 1) (fun _ => 1) 0 = 8 := by
      simp [msePerChannel, mseError, sqErr, predTwoSamplesB, zerosT, fmean,
        Fintype.sum_prod_type, Fin.sum_univ_two, Fin.sum_univ_one]
      norm_num
    rw [hl, hr]
    intro h
    have h2 : Real.sqrt 8 ^ 2 = 8 := Real.sq_sqrt (by norm_num)
    rw [← h] at h2
    norm_num at h2

/-- Claim C7 counterexample: uniform latitude weights with every entry equal
to `1/H` do not reproduce the unweighted result: on a `[1,1,2,1]` input with
constant unit error, `rmse` with weights `1/2` gives `sqrt(1/2)` per channel
while the unweighted computation gives `1`. -/
theorem uniform_inv_h_weights_cex :
    rmsePerChannel (onesT 1 1 2 1) (zerosT 1 1 2 1) (some fun _ => 1 / 2) 0
      ≠ rmsePerChannel (onesT 1 1 2 1) (zerosT 1 1 2 1) none 0 := by
  have hl : rmsePerChannel (onesT 1 1 2 1) (zerosT 1 1 2 1) (some fun _ => (1:ℝ) / 2) 0
      = Real.sqrt (1 / 2) := by
    simp [rmsePerChannel, rmseError, sqErr, onesT, zerosT, fmean,
      Fintype.sum_prod_type, Fin.sum_univ_two, Fin.sum_univ_one]
  have hr : rmsePerChannel (onesT 1 1 2 1) (zerosT 1 1 2 1) none 0 = 1 := by
    simp [rmsePerChannel, rmseError, sqErr, onesT, zerosT, fmean,
      Fintype.sum_prod_type, Fin.sum_univ_two, Fin.sum_univ_one]
  rw [hl, hr]
  intro h
  have h2 : Real.sqrt (1 / 2) ^ 2 = 1 / 2 := Real.sq_sqrt (by norm_num)
  rw [h] at h2
  norm_num at h2

/-- Claim C7 (amended): uniform latitude weights with every entry equal to `1`
(rather than `1/H`) reproduce the unweighted computation exactly, per channel
and in aggregate, for the weighted metrics that accept absent weights
(`rmse`, `nrmses`, `nrmseg`); `mse` has no reachable unweighted computation
to compare against. -/
theorem uniform_one_weights (N C H W : ℕ) (pred target : Tensor N C H W)
    (clim : Fin C → ℝ) (aggregate_only : Bool) :
    rmse pred target aggregate_only (some fun _ => 1)
      = rmse pred target aggregate_only none
    ∧ nrmses pred target clim aggregate_only (some fun _ => 1)
      = nrmses pred target clim aggregate_only none
    ∧ nrmseg pred target clim aggregate_only (some fun _ => 1)
      = nrmseg pred target clim aggregate_only none := by
  have h1 : rmsePerChannel pred target (some fun _ => (1:ℝ))
      = rmsePerChannel pred target none := by
    funext c
    simp [rmsePerChannel, rmseError]
  have h2 : nrmsesPerChannel pred target clim (some fun _ => (1:ℝ))
      = nrmsesPerChannel pred target clim none := by
    funext c
    simp [nrmsesPerChannel, nrmsesError]
  have h3 : nrmsegPerChannel pred target clim (some fun _ => (1:ℝ))
      = nrmsegPerChannel pred target clim none := by
    funext c
    simp [nrmsegPerChannel, nrmsegSpatialMean]
  refine ⟨?_, ?_, ?_⟩ <;> cases aggregate_only <;>
    simp [rmse, nrmses, nrmseg, h1, h2, h3]

/-- Claim C9: the per-channel `nrmseg` score follows this order: multiply
`pred` and `target` element-wise by the latitude weights (when supplied)
before any averaging, spatially average each sample to one scalar per sample
per channel, take the squared difference of these per-sample scalars, average
over the batch axis, take the square root, and divide by the per-channel
climatology normalization value. -/
theorem nrmseg_order :
    (∀ (N C H W : ℕ) (pred target : Tensor N C H W) (clim : Fin C → ℝ)
      (lw : LatWeights H) (c : Fin C),
      (nrmseg pred target clim false (some lw))[(c.val : ℕ)]?
        = some (Real.sqrt (fmean (fun n : Fin N =>
            (fmean (fun hw : Fin H × Fin W => pred n c hw.1 hw.2 * lw hw.1)
              - fmean (fun hw : Fin H × Fin W => target n c hw.1 hw.2 * lw hw.1)) ^ 2))
            / clim c))
    ∧ (∀ (N C H W : ℕ) (pred target : Tensor N C H W) (clim : Fin C → ℝ) (c : Fin C),
      (nrmseg pred target clim false none)[(c.val : ℕ)]?
        = some (Real.sqrt (fmean (fun n : Fin N =>
            (fmean (fun hw : Fin H × Fin W => pred n c hw.1 hw.2)
              - fmean (fun hw : Fin H × Fin W => target n c hw.1 hw.2)) ^ 2))
            / clim c)) := by
  constructor
  · intro N C H W pred target clim lw c
    simp [nrmseg, getElem_ofFn_concat, nrmsegPerChannel, nrmsegSpatialMean]
  · intro N C H W pred target clim c
    simp [nrmseg, getElem_ofFn_concat, nrmsegPerChannel, nrmsegSpatialMean]

/-- Claim C1 counterexample: with channel count `C = 4`, the first
per-channel coefficient of `pearson` is not the Pearson correlation of
channel 0's pooled values.  Channel 0 of the prediction and the target agree
exactly (Pearson correlation 1), but the flattening helper pools channels 0
and 1 into one row, and channel 1 is anti-correlated, giving coefficient 0. -/
theorem pearson_channel_coeff_cex :
    pearsonCoeffs predFourChannels targetFourChannels 0
      ≠ pearsonCorr (channelPool predFourChannels 0)
          (channelPool targetFourChannels 0) := by
  have hnum : (∑ i : Fin 1 × Fin 2 × Fin 1 × Fin 2,
      centerRows (flatten_channel_wise predFourChannels) 0 i
        * centerRows (flatten_channel_wise targetFourChannels) 0 i) = 0 := by
    simp [centerRows, flatten_channel_wise, splitIdx, predFourChannels,
      targetFourChannels, fmean, Fintype.sum_prod_type, Fin.sum_univ_two,
      Fin.sum_univ_one, -Finset.sum_boole]
  have hL : pearsonCoeffs predFourChannels targetFourChannels 0 = 0 := by
    rw [pearsonCoeffs, cosineSim, hnum, zero_div]
  have hTP : channelPool targetFourChannels 0 = channelPool predFourChannels 0 := by
    funext y
    simp [channelPool, predFourChannels, targetFourChannels]
  have hsq : (∑ y : Fin 1 × Fin 1 × Fin 2,
      (channelPool predFourChannels 0 y - fmean (channelPool predFourChannels 0)) ^ 2)
      = 1 / 2 := by
    simp [channelPool, predFourChannels, fmean, Fintype.sum_prod_type,
      Fin.sum_univ_two, Fin.sum_univ_one, -Finset.sum_boole]
    norm_num
  have hmul : (∑ y : Fin 1 × Fin 1 × Fin 2,
      (channelPool predFourChannels 0 y - fmean (channelPool predFourChannels 0))
        * (channelPool predFourChannels 0 y - fmean (channelPool predFourChannels 0)))
      = 1 / 2 := by
    have h2 : ∀ y : Fin 1 × Fin 1 × Fin 2,
        (channelPool predFourChannels 0 y - fmean (channelPool predFourChannels 0))
          * (channelPool predFourChannels 0 y - fmean (channelPool predFourChannels 0))
        = (channelPool predFourChannels 0 y - fmean (channelPool predFourChannels 0)) ^ 2 :=
      fun y => (sq (channelPool predFourChannels 0 y
        - fmean (channelPool predFourChannels 0))).symm
    rw [Finset.sum_congr rfl (fun y _ => h2 y), hsq]
  have hR : pearsonCorr (channelPool predFourChannels 0)
      (channelPool targetFourChannels 0) = 1 := by
    rw [pearsonCorr, hTP, hmul, hsq, Real.mul_self_sqrt (by norm_num : (0:ℝ) ≤ 1 / 2)]
    norm_num
  rw [hL, hR]
  norm_num

/-- Claim C1 (amended): for channel count `C = 2` the channel-flattening
helper does reshape each tensor into one row per channel pooling batch and
spatial dimensions (`[2, N*H*W]`), and the per-channel coefficient for
channel `g` equals the Pearson correlation of channel `g`'s pooled values,
provided both mean-removed rows have Euclidean norm at least the
cosine-similarity clamp `eps`; for other channel counts the helper still
splits into exactly two groups, so the original claim fails (see the
counterexample). -/
theorem pearson_channel_coeff_c2 (N H W : ℕ) (pred target : Tensor N (2 * 1) H W)
    (g : Fin 2)
    (hp : eps ≤ Real.sqrt (∑ y : Fin N × Fin H × Fin W,
      (channelPool pred g y - fmean (channelPool pred g)) ^ 2))
    (ht : eps ≤ Real.sqrt (∑ y : Fin N × Fin H × Fin W,
      (channelPool target g y - fmean (channelPool target g)) ^ 2)) :
    (∀ i : Fin N × Fin 1 × Fin H × Fin W,
      flatten_channel_wise pred g i = channelPool pred g (i.1, i.2.2.1, i.2.2.2))
    ∧ pearsonCoeffs pred target g
        = pearsonCorr (channelPool pred g) (channelPool target g) := by
  have hsplit : ∀ (x : Tensor N (2 * 1) H W) (i : Fin N × Fin 1 × Fin H × Fin W),
      flatten_channel_wise x g i = channelPool x g (i.1, i.2.2.1, i.2.2.2) := by
    intro x i
    have hidx : splitIdx 1 g i.2.1 = g := by
      apply Fin.ext
      simp [splitIdx]
    rw [flatten_channel_wise, hidx]
    rfl
  have hfP : flatten_channel_wise pred g
      = fun i : Fin N × Fin 1 × Fin H × Fin W =>
        channelPool pred g (i.1, i.2.2.1, i.2.2.2) := funext (hsplit pred)
  have hfT : flatten_channel_wise target g
      = fun i : Fin N × Fin 1 × Fin H × Fin W =>
        channelPool target g (i.1, i.2.2.1, i.2.2.2) := funext (hsplit target)
  refine ⟨hsplit pred, ?_⟩
  rw [pearsonCoeffs, pearsonCorr, cosineSim]
  simp only [centerRows, hfP, hfT]
  simp only [sum_fin1_mid, fmean_fin1_mid]
  rw [max_eq_left hp, max_eq_left ht]

/-- Claim C1 witness: a concrete two-channel input (both channels holding the
zero-mean values `(1, -1)`) satisfies the norm side conditions, and there the
per-channel coefficient equals the Pearson correlation of the channel's
pooled values. -/
theorem pearson_channel_coeff_c2_witness :
    eps ≤ Real.sqrt (∑ y : Fin 1 × Fin 1 × Fin 2,
      (channelPool predTwoChannels 0 y - fmean (channelPool predTwoChannels 0)) ^ 2)
    ∧ pearsonCoeffs predTwoChannels predTwoChannels 0
        = pearsonCorr (channelPool predTwoChannels 0) (channelPool predTwoChannels 0) := by
  have hs : (∑ y : Fin 1 × Fin 1 × Fin 2,
      (channelPool predTwoChannels 0 y - fmean (channelPool predTwoChannels 0)) ^ 2)
      = 2 := by
    simp [channelPool, predTwoChannels, fmean, Fintype.sum_prod_type,
      Fin.sum_univ_two, Fin.sum_univ_one, -Finset.sum_boole]
  have hp : eps ≤ Real.sqrt (∑ y : Fin 1 × Fin 1 × Fin 2,
      (channelPool predTwoChannels 0 y - fmean (channelPool predTwoChannels 0)) ^ 2) := by
    rw [hs]
    calc eps ≤ 1 := by norm_num [eps]
    _ = Real.sqrt 1 := Real.sqrt_one.symm
    _ ≤ Real.sqrt 2 := Real.sqrt_le_sqrt (by norm_num)
  exact ⟨hp, (pearson_channel_coeff_c2 1 1 2 predTwoChannels predTwoChannels 0 hp hp).2⟩

end ClimateLearn
